import Mathlib

/-!
Shallow embedding of the melior dialect code generator
(src/macro/src/dialect/generation.rs,
src/macro/src/dialect/generation/operation_builder.rs) and of
src/melior/src/ir/identifier.rs, together with theorems settling the
frozen claims about the typestate builder generator.

The generator functions are translated from the Rust source.  The schema
model and the type-state helper functions live in repository modules that
are not part of the given sources (only their callers are); those are
modelled from the specification, as marked on each definition.
-/

namespace Melior

/-- Cardinality of a schema field: exactly one, zero or one, or zero or
more items.  Modelled from the spec: the Cardinality tag of the schema
model (section 3), whose module is not among the given sources. -/
inductive Cardinality where
  | required
  | optional
  | variadic
  deriving DecidableEq, Repr

/-- The five field categories of an operation schema.  Modelled from the
spec: the variant set of the Field data model (section 3). -/
inductive FieldKind where
  | result
  | operand
  | region
  | successor
  | attributeKind
  deriving DecidableEq, Repr

/-- One schema field: a name, a category and a cardinality.  Modelled
from the spec: the Field data model of section 3 (the declared element
type is irrelevant to the claims and omitted). -/
structure Field where
  name : String
  kind : FieldKind
  cardinality : Cardinality
  deriving DecidableEq, Repr

/-- Field classifier: a field is required when its cardinality tag is
Required.  Modelled from the spec: section 4.3. -/
def Field.is_required (f : Field) : Bool :=
  match f.cardinality with
  | Cardinality.required => true
  | _ => false

/-- Field classifier used by the builder generator branch.  Modelled from
the spec: per sections 2, 3 and 4.4 exactly the Required fields form the
typestate and every Optional or Variadic field is always settable, so the
always-settable branch of generate_field_fn applies to every field whose
cardinality is not Required. -/
def Field.is_optional (f : Field) : Bool :=
  !f.is_required

/-- Field classifier for the variadic cardinality.  Modelled from the
spec: section 4.3. -/
def Field.is_variadic (f : Field) : Bool :=
  match f.cardinality with
  | Cardinality.variadic => true
  | _ => false

/-- Plural name of a field category, used to form the add function name
of the host IR builder.  Modelled from the spec: the host builder append
operations are sequence-accepting, one per category (section 4.3). -/
def pluralKind : FieldKind → String
  | FieldKind.result => "results"
  | FieldKind.operand => "operands"
  | FieldKind.region => "regions"
  | FieldKind.successor => "successors"
  | FieldKind.attributeKind => "attributes"

/-- The add function of the host IR builder invoked by the setter of a
field, from format_ident of add_ and the plural kind identifier in
generate_field_fn (operation_builder.rs line 73). -/
def addIdentifier (f : Field) : String :=
  "add_" ++ pluralKind f.kind

/-- An operation schema.  Modelled from the spec: the OperationSchema
data model of section 3 (name, fully qualified name, documentation,
ordered field lists per category, and the can-infer-result-types flag). -/
structure Operation where
  name : String
  fullOperationName : String
  summary : String
  description : String
  results : List Field
  operands : List Field
  regions : List Field
  successors : List Field
  attributes : List Field
  canInferType : Bool
  deriving DecidableEq, Repr

/-- The fields for which generate_operation_builder emits a setter, in
emission order: results only when type inference is disabled
(operation_builder.rs lines 6 to 34), then operands, regions, successors
and attributes. -/
def settableFields (op : Operation) : List Field :=
  (if op.canInferType then [] else op.results) ++
    op.operands ++ op.regions ++ op.successors ++ op.attributes

/-- The typestate fields of an operation.  Modelled from the spec:
section 3, TypeStateParameter: one per Required field across all
categories, results only included when type inference is disabled, in
declaration order. -/
def typeStateFields (op : Operation) : List Field :=
  (settableFields op).filter Field.is_required

/-- Number of type-state coordinates of the generated builder. -/
def numParams (op : Operation) : Nat :=
  (typeStateFields op).length

/-- The full list of type-state parameters.  Modelled from the spec:
section 4.4 assigns each required field a fresh type parameter name in
order; freshness is modelled by using the position index as the name. -/
def parameters (op : Operation) : List Nat :=
  List.range (numParams op)

/-- Helper computing the generic parameter indices of every typestate
field whose name differs from the given one, starting at a given
position. -/
def paramsWithoutAux (nm : String) : Nat → List Field → List Nat
  | _, [] => []
  | i, f :: fs =>
    if f.name = nm then paramsWithoutAux nm (i + 1) fs
    else i :: paramsWithoutAux nm (i + 1) fs

/-- The parameters_without method of the missing type_state module.
Modelled from the spec: section 4.4, list 1 (every required field
parameter except the one of the target field). -/
def parameters_without (op : Operation) (nm : String) : List Nat :=
  paramsWithoutAux nm 0 (typeStateFields op)

/-- One argument of a builder type instantiation as written in the
emitted impl blocks: either a generic type parameter or one of the two
concrete marker types. -/
inductive StateArg where
  | param (n : Nat)
  | set
  | unset
  deriving DecidableEq, Repr

/-- Helper computing a full instantiation argument list where the
coordinates named nm are fixed to the given marker and every other
coordinate is its own generic parameter. -/
def stateArgsAux (nm : String) (marker : StateArg) : Nat → List Field → List StateArg
  | _, [] => []
  | i, f :: fs =>
    (if f.name = nm then marker else StateArg.param i) ::
      stateArgsAux nm marker (i + 1) fs

/-- The arguments_set method of the missing type_state module.  Modelled
from the spec: section 4.4, lists 2 and 3 (the full parameter tuple with
the target field coordinate fixed to the Unset or Set marker and every
other coordinate left as its generic parameter). -/
def arguments_set (op : Operation) (nm : String) (set : Bool) : List StateArg :=
  stateArgsAux nm (if set then StateArg.set else StateArg.unset) 0 (typeStateFields op)

/-- The arguments_all_set method of the missing type_state module.
Modelled from the spec: sections 3 and 4.5, the all-Set or all-Unset
instantiation of the builder. -/
def arguments_all_set (op : Operation) (set : Bool) : List StateArg :=
  (typeStateFields op).map (fun _ => if set then StateArg.set else StateArg.unset)

/-- What the body of a generated builder method does: create the host IR
builder keyed by an operation name, append items through an add function
of the host builder, or finalize (with or without result type
inference). -/
inductive MethodBody where
  | newOp (opName : String)
  | addField (addName : String)
  | buildOp (infer : Bool)
  deriving DecidableEq, Repr

/-- One emitted impl block defining one method of the generated builder
type: its generic parameters, the builder instantiation it is defined on,
the method name, whether it takes self by value, the builder
instantiation it returns (none when it returns the wrapper type), and its
body. -/
structure MethodImpl where
  implParams : List Nat
  selfArgs : List StateArg
  methodName : String
  takesSelf : Bool
  returns : Option (List StateArg)
  body : MethodBody
  deriving DecidableEq, Repr

/-- Embeds generate_field_fn (operation_builder.rs lines 68 to 108): an
always-settable field gets one impl generic over the full parameter list
returning the same instantiation; any other field gets an impl generic
over the other parameters, defined at the instantiation with its own
coordinate Unset and returning the instantiation with it Set.  Both take
self by value and append through the add function of the host builder. -/
def generate_field_fn (op : Operation) (field : Field) : MethodImpl :=
  if field.is_optional then
    { implParams := parameters op
      selfArgs := (parameters op).map StateArg.param
      methodName := field.name
      takesSelf := true
      returns := some ((parameters op).map StateArg.param)
      body := MethodBody.addField (addIdentifier field) }
  else
    { implParams := parameters_without op field.name
      selfArgs := arguments_set op field.name false
      methodName := field.name
      takesSelf := true
      returns := some (arguments_set op field.name true)
      body := MethodBody.addField (addIdentifier field) }

/-- Embeds generate_build_fn (operation_builder.rs lines 110 to 127): one
impl at the all-Set instantiation whose build method finalizes the host
builder, enabling result type inference exactly when the schema flag is
set, and returns the wrapper type. -/
def generate_build_fn (op : Operation) : MethodImpl :=
  { implParams := []
    selfArgs := arguments_all_set op true
    methodName := "build"
    takesSelf := true
    returns := none
    body := MethodBody.buildOp op.canInferType }

/-- Embeds generate_new_fn (operation_builder.rs lines 129 to 145): one
impl at the all-Unset instantiation whose new constructor creates the
host IR operation builder keyed by the fully qualified operation name and
the caller-supplied location, returning Self. -/
def generate_new_fn (op : Operation) : MethodImpl :=
  { implParams := []
    selfArgs := arguments_all_set op false
    methodName := "new"
    takesSelf := false
    returns := some (arguments_all_set op false)
    body := MethodBody.newOp op.fullOperationName }

/-- The emitted builder definition: the generic struct (its type
parameter list) together with every emitted method impl. -/
structure GeneratedBuilder where
  structParams : List Nat
  methods : List MethodImpl
  deriving DecidableEq, Repr

/-- Embeds generate_operation_builder (operation_builder.rs lines 5 to
65): the builder struct generic over the full parameter list, the new
impl, the per-field impls (results skipped when the schema can infer
result types), and the build impl, in emission order. -/
def generate_operation_builder (op : Operation) : GeneratedBuilder :=
  { structParams := parameters op
    methods :=
      generate_new_fn op ::
        ((if op.canInferType then []
          else op.results.map (generate_field_fn op)) ++
          op.operands.map (generate_field_fn op) ++
          op.regions.map (generate_field_fn op) ++
          op.successors.map (generate_field_fn op) ++
          op.attributes.map (generate_field_fn op) ++
          [generate_build_fn op]) }

/-- The method impls of the emitted builder of an operation. -/
def builderMethods (op : Operation) : List MethodImpl :=
  (generate_operation_builder op).methods

/-- The required fields of an operation, used by the default constructor
generator.  Modelled from the spec: sections 3 and 4.6, the required
fields in declaration order, which are exactly the typestate fields. -/
def required_fields (op : Operation) : List Field :=
  typeStateFields op

/-- The emitted default constructor free function: its argument names
(one per required field, then the location; the context argument always
comes first and is left implicit here), the method names chained on the
builder in order, and the final call. -/
structure DefaultConstructor where
  args : List String
  calls : List String
  finalCall : String
  deriving DecidableEq, Repr

/-- Embeds generate_default_constructor (operation_builder.rs lines 162
to 195): one argument per required field followed by the location, the
chained builder calls naming each required field in declaration order,
then build. -/
def generate_default_constructor (op : Operation) : DefaultConstructor :=
  { args := (required_fields op).map Field.name ++ ["location"]
    calls := (required_fields op).map Field.name
    finalCall := "build" }

/-- A concrete instantiation of the builder type assigns each coordinate
a marker; true stands for Set and false for Unset.  An emitted impl is
available at an instantiation when some assignment of the generic
parameters makes its self instantiation equal to it. -/
def StateArg.interp (r : Nat → Bool) : StateArg → Bool
  | StateArg.param n => r n
  | StateArg.set => true
  | StateArg.unset => false

/-- Availability of an emitted method impl at a concrete builder
instantiation. -/
def availableAt (m : MethodImpl) (s : List Bool) : Prop :=
  ∃ r : Nat → Bool, m.selfArgs.map (StateArg.interp r) = s

/-- Runtime state of the in-progress host IR builder held by the
generated builder: the operation name, the location it was created with,
and the sequence of add calls performed so far. -/
structure BuilderSt where
  opName : String
  loc : String
  adds : List (String × String)
  deriving DecidableEq, Repr

/-- The finalized operation produced by build: the name and location of
the underlying builder, its recorded add calls, and whether result type
inference was enabled. -/
structure Constructed where
  opName : String
  loc : String
  adds : List (String × String)
  inferred : Bool
  deriving DecidableEq, Repr

/-- Invoking one chained setter call by name on the emitted methods: the
method is looked up by name and its body, which must be an add, is
applied to the state. -/
def callMethod (ms : List MethodImpl) (st : BuilderSt) (c : String × String) :
    Option BuilderSt :=
  match ms.find? (fun m => m.methodName == c.1) with
  | some m =>
    match m.body with
    | MethodBody.addField a => some { st with adds := st.adds ++ [(a, c.2)] }
    | _ => none
  | none => none

/-- Runs a sequence of chained setter calls against the emitted
methods. -/
def runCalls (ms : List MethodImpl) : BuilderSt → List (String × String) → Option BuilderSt
  | st, [] => some st
  | st, c :: cs =>
    match callMethod ms st c with
    | some st2 => runCalls ms st2 cs
    | none => none

/-- Runs the emitted default constructor under the semantics of the
emitted builder methods: look up new and start from its creation body
with the caller-supplied location, run the chained calls of the emitted
constructor paired with the given values, then look up build and finalize
with its body. -/
def runDefaultConstructor (op : Operation) (loc : String) (vs : List String) :
    Option Constructed :=
  match (builderMethods op).find? (fun m => m.methodName == "new") with
  | some mNew =>
    match mNew.body with
    | MethodBody.newOp nm =>
      match runCalls (builderMethods op)
          { opName := nm, loc := loc, adds := [] }
          ((generate_default_constructor op).calls.zip vs) with
      | some st =>
        match (builderMethods op).find? (fun m => m.methodName == "build") with
        | some mBuild =>
          match mBuild.body with
          | MethodBody.buildOp infer =>
            some { opName := st.opName, loc := st.loc, adds := st.adds, inferred := infer }
          | _ => none
        | none => none
      | none => none
    | _ => none
  | none => none

/-- The result of manually driving the builder through the required
field setters in declaration order with the given values and calling
build: the host builder is created with the fully qualified name and
location, each required field appends through its add function in order,
and finalization records the inference flag. -/
def manualBuildResult (op : Operation) (loc : String) (vs : List String) : Constructed :=
  { opName := op.fullOperationName
    loc := loc
    adds := ((required_fields op).zip vs).map (fun p => (addIdentifier p.1, p.2))
    inferred := op.canInferType }

/-- The generic operation representation of the host IR, at its
interface: an operation name and observable field contents. -/
structure GenericOperation where
  name : String
  contents : List (String × String)
  deriving DecidableEq, Repr

/-- The generated named wrapper type (generation.rs lines 63 to 65): it
owns one generic operation value. -/
structure OperationWrapper where
  operation : GenericOperation
  deriving DecidableEq, Repr

/-- Embeds the generated TryFrom impl (generation.rs lines 91 to 100):
the body wraps the generic operation unconditionally and returns Ok; the
expected name, the fully qualified name of the wrapper, is not consulted
(the source carries a TODO about checking the operation name). -/
def wrapper_try_from (_expectedName : String) (op : GenericOperation) :
    Except String OperationWrapper :=
  Except.ok { operation := op }

/-- Embeds the generated From impl (generation.rs lines 102 to 106): the
widening conversion returns the owned generic operation. -/
def wrapper_from (w : OperationWrapper) : GenericOperation :=
  w.operation

/-- The emitted definition assembled by generate_operation: the wrapper
type name, the fully qualified name returned by the name method, the
documentation, the accessor method names (one per field, from the
accessor generator modules, modelled from the spec sections 4.2 and
4.7), the builder definition, the instantiation returned by the builder
entry point, and the default constructor. -/
structure GeneratedOperation where
  typeName : String
  operationName : String
  summary : String
  description : String
  accessorNames : List String
  builder : GeneratedBuilder
  builderEntryState : List StateArg
  defaultCtor : DefaultConstructor
  deriving DecidableEq, Repr

/-- Embeds generate_operation (generation.rs lines 23 to 108), assembling
the emitted definition from the schema alone. -/
def generate_operation (op : Operation) : GeneratedOperation :=
  { typeName := op.name
    operationName := op.fullOperationName
    summary := op.summary
    description := op.description
    accessorNames :=
      (op.results ++ op.operands ++ op.regions ++ op.successors ++ op.attributes).map
        Field.name
    builder := generate_operation_builder op
    builderEntryState := arguments_all_set op false
    defaultCtor := generate_default_constructor op }

/-- The raw identifier value of the C interface, an opaque handle
(src/melior/src/ir/identifier.rs). -/
structure MlirIdentifier where
  ptr : Nat
  deriving DecidableEq, Repr

/-- Embeds Identifier (identifier.rs lines 12 to 16): it stores the raw
value (the phantom context marker carries no data). -/
structure Identifier where
  raw : MlirIdentifier
  deriving DecidableEq, Repr

/-- Embeds Identifier from_raw (identifier.rs lines 44 to 49). -/
def Identifier.from_raw (raw : MlirIdentifier) : Identifier :=
  { raw := raw }

/-- Embeds Identifier to_raw (identifier.rs lines 52 to 54). -/
def Identifier.to_raw (i : Identifier) : MlirIdentifier :=
  i.raw

/-- The required operand of the example schema below. -/
def exLhs : Field :=
  { name := "lhs", kind := FieldKind.operand, cardinality := Cardinality.required }

/-- The variadic operand of the example schema below. -/
def exVs : Field :=
  { name := "vs", kind := FieldKind.operand, cardinality := Cardinality.variadic }

/-- A concrete example schema used by the witness theorems: one required
result, one required and one variadic operand, one optional attribute,
inference disabled. -/
def exOp : Operation :=
  { name := "ExampleOp"
    fullOperationName := "test.example"
    summary := "example"
    description := "an example operation"
    results := [{ name := "res", kind := FieldKind.result, cardinality := Cardinality.required }]
    operands := [exLhs, exVs]
    regions := []
    successors := []
    attributes :=
      [{ name := "flag", kind := FieldKind.attributeKind, cardinality := Cardinality.optional }]
    canInferType := false }

/-- The method name of a generated setter is the field name, in both
branches of generate_field_fn. -/
theorem methodName_generate_field_fn (op : Operation) (f : Field) :
    (generate_field_fn op f).methodName = f.name := by
  unfold generate_field_fn
  split <;> rfl

/-- The body of a generated setter appends through the add function of
the field, in both branches of generate_field_fn. -/
theorem body_generate_field_fn (op : Operation) (f : Field) :
    (generate_field_fn op f).body = MethodBody.addField (addIdentifier f) := by
  unfold generate_field_fn
  split <;> rfl

/-- The emitted method list is the new impl, one setter per settable
field in emission order, and the build impl. -/
theorem builderMethods_eq (op : Operation) :
    builderMethods op =
      generate_new_fn op ::
        ((settableFields op).map (generate_field_fn op) ++ [generate_build_fn op]) := by
  unfold builderMethods generate_operation_builder settableFields
  cases h : op.canInferType <;> simp [List.map_append]

/-- Pointwise description of the instantiation argument helper. -/
theorem stateArgsAux_getElem? (nm : String) (mk : StateArg) :
    ∀ (l : List Field) (s j : Nat),
      (stateArgsAux nm mk s l)[j]? =
        (l[j]?).map (fun f => if f.name = nm then mk else StateArg.param (s + j)) := by
  intro l
  induction l with
  | nil => intro s j; simp [stateArgsAux]
  | cons f fs ih =>
    intro s j
    cases j with
    | zero => simp [stateArgsAux]
    | succ j =>
      have h : s + 1 + j = s + (j + 1) := by omega
      simp only [stateArgsAux, List.getElem?_cons_succ, ih (s + 1) j, h]

/-- Pointwise description of the arguments_set instantiation list. -/
theorem arguments_set_getElem? (op : Operation) (nm : String) (b : Bool) (j : Nat) :
    (arguments_set op nm b)[j]? =
      ((typeStateFields op)[j]?).map
        (fun g => if g.name = nm
          then (if b then StateArg.set else StateArg.unset)
          else StateArg.param j) := by
  unfold arguments_set
  rw [stateArgsAux_getElem?]
  simp

/-- Interpreting the all-marker instantiation under any parameter
assignment yields the constant instantiation. -/
theorem map_interp_arguments_all_set (op : Operation) (b : Bool) (r : Nat → Bool) :
    (arguments_all_set op b).map (StateArg.interp r) =
      List.replicate (numParams op) b := by
  unfold arguments_all_set numParams
  rw [List.map_map]
  cases b <;> simp [Function.comp_def, StateArg.interp, List.map_const']

/-- Looking up a setter by field name among mapped setters finds the
setter of the field itself, given distinct field names. -/
theorem find_map_setter (op : Operation) (f : Field) :
    ∀ l : List Field, f ∈ l → (l.map Field.name).Nodup →
      (l.map (generate_field_fn op)).find? (fun m => m.methodName == f.name) =
        some (generate_field_fn op f) := by
  intro l
  induction l with
  | nil => intro h _; simp at h
  | cons g gs ih =>
    intro hmem hnd
    by_cases hg : g.name = f.name
    · have hgf : g = f := by
        rcases List.mem_cons.mp hmem with rfl | hfgs
        · rfl
        · exfalso
          have hin : f.name ∈ gs.map Field.name := List.mem_map_of_mem Field.name hfgs
          exact (List.nodup_cons.mp hnd).1 (hg ▸ hin)
      subst hgf
      have hp : ((generate_field_fn op g).methodName == g.name) = true := by
        simp [methodName_generate_field_fn]
      simp [List.find?, hp]
    · have hp : ((generate_field_fn op g).methodName == f.name) = false := by
        simp [methodName_generate_field_fn, hg]
      have hfgs : f ∈ gs := by
        rcases List.mem_cons.mp hmem with rfl | h
        · exact absurd rfl hg
        · exact h
      simp only [List.map_cons, List.find?, hp]
      exact ih hfgs (List.nodup_cons.mp hnd).2

/-- Looking up new among the emitted methods finds the new impl. -/
theorem find_method_new (op : Operation) :
    (builderMethods op).find? (fun m => m.methodName == "new") =
      some (generate_new_fn op) := by
  rw [builderMethods_eq]
  have hp : ((generate_new_fn op).methodName == "new") = true := rfl
  simp [List.find?, hp]

/-- Looking up a settable field by name among the emitted methods finds
its setter, given distinct field names and a field not named new. -/
theorem find_method_setter (op : Operation) (f : Field)
    (hf : f ∈ settableFields op)
    (hnd : ((settableFields op).map Field.name).Nodup)
    (hnew : f.name ≠ "new") :
    (builderMethods op).find? (fun m => m.methodName == f.name) =
      some (generate_field_fn op f) := by
  rw [builderMethods_eq]
  have h1 : ((generate_new_fn op).methodName == f.name) = false := by
    have : ("new" : String) ≠ f.name := fun h => hnew h.symm
    simpa [generate_new_fn] using this
  simp only [List.find?, h1]
  rw [List.find?_append, find_map_setter op f _ hf hnd]
  rfl

/-- Looking up build among the emitted methods finds the build impl,
given that no field is named build. -/
theorem find_method_build (op : Operation)
    (hb : ∀ f ∈ settableFields op, f.name ≠ "build") :
    (builderMethods op).find? (fun m => m.methodName == "build") =
      some (generate_build_fn op) := by
  rw [builderMethods_eq]
  have h1 : ((generate_new_fn op).methodName == "build") = false := rfl
  simp only [List.find?, h1]
  rw [List.find?_append]
  have h2 : ((settableFields op).map (generate_field_fn op)).find?
      (fun m => m.methodName == "build") = none := by
    rw [List.find?_eq_none]
    intro m hm
    rcases List.mem_map.mp hm with ⟨g, hg, rfl⟩
    simp [methodName_generate_field_fn, hb g hg]
  rw [h2]
  have h3 : ((generate_build_fn op).methodName == "build") = true := rfl
  simp [List.find?, h3]

/-- Running the chained calls of a list of required fields against the
emitted methods appends exactly the add events of those fields in
order. -/
theorem runCalls_required (op : Operation)
    (hnd : ((settableFields op).map Field.name).Nodup)
    (hnew : ∀ f ∈ settableFields op, f.name ≠ "new") :
    ∀ (fs : List Field) (vs : List String) (st : BuilderSt),
      (∀ f ∈ fs, f ∈ settableFields op) →
      runCalls (builderMethods op) st ((fs.map Field.name).zip vs) =
        some { st with
          adds := st.adds ++ (fs.zip vs).map (fun p => (addIdentifier p.1, p.2)) } := by
  intro fs
  induction fs with
  | nil => intro vs st _; simp [runCalls]
  | cons f fs ih =>
    intro vs st hmem
    cases vs with
    | nil => simp [runCalls]
    | cons v vs =>
      have hf : f ∈ settableFields op := hmem f (by simp)
      have hfind : (builderMethods op).find? (fun m => m.methodName == f.name) =
          some (generate_field_fn op f) :=
        find_method_setter op f hf hnd (hnew f hf)
      simp only [List.map_cons, List.zip_cons_cons, runCalls, callMethod, hfind,
        body_generate_field_fn]
      rw [show List.zipWith Prod.mk (List.map Field.name fs) vs =
        (List.map Field.name fs).zip vs from rfl]
      rw [ih vs _ (fun g hg => hmem g (by simp [hg]))]
      simp

/-- Claim C1: for every operation schema, among the emitted builder
impls the build method is available on exactly one instantiation of the
type-state coordinates, the one with every coordinate set to the Set
marker, and on no other assignment of the markers. -/
theorem claim1_build_defined_only_at_all_set (op : Operation)
    (hb : ∀ f ∈ settableFields op, f.name ≠ "build")
    (s : List Bool) (hlen : s.length = numParams op) :
    (∃ m ∈ builderMethods op, m.methodName = "build" ∧ availableAt m s) ↔
      s = List.replicate (numParams op) true := by
  constructor
  · rintro ⟨m, hm, hname, r, hr⟩
    rw [builderMethods_eq] at hm
    rcases List.mem_cons.mp hm with rfl | hm2
    · simp [generate_new_fn] at hname
    rcases List.mem_append.mp hm2 with hm3 | hm4
    · rcases List.mem_map.mp hm3 with ⟨g, hg, rfl⟩
      rw [methodName_generate_field_fn] at hname
      exact absurd hname (hb g hg)
    · have hmb : m = generate_build_fn op := by simpa using hm4
      subst hmb
      rw [show (generate_build_fn op).selfArgs = arguments_all_set op true from rfl,
        map_interp_arguments_all_set] at hr
      exact hr.symm
  · rintro rfl
    refine ⟨generate_build_fn op, ?_, rfl, fun _ => true, ?_⟩
    · rw [builderMethods_eq]; simp
    · exact map_interp_arguments_all_set op true _

/-- Claim C1 witness at the example schema and the all-Set
instantiation. -/
theorem claim1_build_defined_only_at_all_set_witness :
    (∃ m ∈ builderMethods exOp, m.methodName = "build" ∧ availableAt m [true, true]) ↔
      [true, true] = List.replicate (numParams exOp) true :=
  claim1_build_defined_only_at_all_set exOp (by decide) [true, true] (by decide)

/-- Claim C3 counterexample: the generated narrowing conversion does not
fail on a generic value whose operation name differs from the expected
fully qualified name; at this concrete mismatched input it returns Ok. -/
theorem claim3_narrowing_counterexample :
    ({ name := "other.op", contents := [] } : GenericOperation).name ≠ "test.example" ∧
      wrapper_try_from "test.example" { name := "other.op", contents := [] } =
        Except.ok { operation := { name := "other.op", contents := [] } } :=
  ⟨by decide, rfl⟩

/-- Claim C3 amended: the generated narrowing conversion performs no name
check and always succeeds, returning the wrapped generic value unchanged,
even when the operation name differs from the expected one. -/
theorem claim3_narrowing_never_fails (expected : String) (op : GenericOperation) :
    wrapper_try_from expected op = Except.ok { operation := op } :=
  rfl

/-- Claim C6: for every constructed wrapper value whose operation name
matches the expected fully qualified name, widening to the generic
representation and narrowing back yields the original value, with equal
name and equal field contents. -/
theorem claim6_roundtrip (expected : String) (w : OperationWrapper)
    (hname : w.operation.name = expected) :
    wrapper_try_from expected (wrapper_from w) = Except.ok w ∧
      (wrapper_from w).name = w.operation.name ∧
      (wrapper_from w).contents = w.operation.contents := by
  cases w
  exact ⟨rfl, rfl, rfl⟩

/-- Claim C6 witness at a concrete wrapper whose name matches. -/
theorem claim6_roundtrip_witness :
    wrapper_try_from "test.example"
        (wrapper_from { operation := { name := "test.example", contents := [("a", "b")] } }) =
      Except.ok { operation := { name := "test.example", contents := [("a", "b")] } } ∧
      (wrapper_from { operation := { name := "test.example", contents := [("a", "b")] } }).name =
        ({ name := "test.example", contents := [("a", "b")] } : GenericOperation).name ∧
      (wrapper_from { operation := { name := "test.example", contents := [("a", "b")] } }).contents =
        ({ name := "test.example", contents := [("a", "b")] } : GenericOperation).contents :=
  claim6_roundtrip "test.example"
    { operation := { name := "test.example", contents := [("a", "b")] } } rfl

/-- Claim C8: for every operation schema the emitted new constructor is
available on exactly the all-Unset instantiation of the type-state
coordinates, does not take self, and its body creates the host IR
operation builder keyed by the fully qualified operation name together
with the caller-supplied location. -/
theorem claim8_new_at_all_unset (op : Operation)
    (hn : ∀ f ∈ settableFields op, f.name ≠ "new")
    (s : List Bool) (hlen : s.length = numParams op) :
    ((∃ m ∈ builderMethods op, m.methodName = "new" ∧ availableAt m s) ↔
      s = List.replicate (numParams op) false) ∧
      generate_new_fn op ∈ builderMethods op ∧
      (generate_new_fn op).body = MethodBody.newOp op.fullOperationName ∧
      (generate_new_fn op).takesSelf = false := by
  refine ⟨?_, by rw [builderMethods_eq]; simp, rfl, rfl⟩
  constructor
  · rintro ⟨m, hm, hname, r, hr⟩
    rw [builderMethods_eq] at hm
    rcases List.mem_cons.mp hm with rfl | hm2
    · rw [show (generate_new_fn op).selfArgs = arguments_all_set op false from rfl,
        map_interp_arguments_all_set] at hr
      exact hr.symm
    rcases List.mem_append.mp hm2 with hm3 | hm4
    · rcases List.mem_map.mp hm3 with ⟨g, hg, rfl⟩
      rw [methodName_generate_field_fn] at hname
      exact absurd hname (hn g hg)
    · have hmb : m = generate_build_fn op := by simpa using hm4
      subst hmb
      simp [generate_build_fn] at hname
  · rintro rfl
    refine ⟨generate_new_fn op, ?_, rfl, fun _ => false, ?_⟩
    · rw [builderMethods_eq]; simp
    · exact map_interp_arguments_all_set op false _

/-- Claim C8 witness at the example schema and the all-Unset
instantiation. -/
theorem claim8_new_at_all_unset_witness :
    ((∃ m ∈ builderMethods exOp, m.methodName = "new" ∧ availableAt m [false, false]) ↔
      [false, false] = List.replicate (numParams exOp) false) ∧
      generate_new_fn exOp ∈ builderMethods exOp ∧
      (generate_new_fn exOp).body = MethodBody.newOp exOp.fullOperationName ∧
      (generate_new_fn exOp).takesSelf = false :=
  claim8_new_at_all_unset exOp (by decide) [false, false] (by decide)

/-- Claim C9: the generator is deterministic; two invocations of
generate_operation on the same immutable schema emit the same
definition. -/
theorem claim9_generator_deterministic (a b : Operation) (h : a = b) :
    generate_operation a = generate_operation b := by
  rw [h]

/-- Claim C9 witness at the example schema. -/
theorem claim9_generator_deterministic_witness :
    generate_operation exOp = generate_operation exOp :=
  claim9_generator_deterministic exOp exOp rfl

/-- Claim C10: for every raw identifier value, constructing an
Identifier from it and converting back yields the same raw value. -/
theorem claim10_identifier_raw_roundtrip (x : MlirIdentifier) :
    (Identifier.from_raw x).to_raw = x :=
  rfl

/-- Positions in the typestate field list are determined by field name
when the names are distinct. -/
theorem ts_index_unique (op : Operation) (f : Field) (j : Nat)
    (hnd : ((typeStateFields op).map Field.name).Nodup)
    (hj : (typeStateFields op)[j]? = some f) :
    ∀ i g, (typeStateFields op)[i]? = some g → g.name = f.name → i = j := by
  intro i g hig hgname
  have h1 : ((typeStateFields op).map Field.name)[i]? = some f.name := by
    rw [List.getElem?_map, hig]
    simp [hgname]
  have h2 : ((typeStateFields op).map Field.name)[j]? = some f.name := by
    rw [List.getElem?_map, hj]
    simp
  have hi : i < ((typeStateFields op).map Field.name).length := by
    by_contra hcon
    push_neg at hcon
    rw [List.getElem?_eq_none hcon] at h1
    exact Option.noConfusion h1
  exact List.getElem?_inj hi hnd (h1.trans h2.symm)

/-- Claim C2: for every required field of an operation schema, the
generated setter is among the emitted methods, consumes self, is
available exactly on the instantiations whose coordinate for the field
is Unset with every other coordinate generic, and returns the builder
with that coordinate Set and all other coordinates unchanged. -/
theorem claim2_required_setter_transition (op : Operation) (f : Field)
    (hmem : f ∈ typeStateFields op)
    (hnd : ((typeStateFields op).map Field.name).Nodup) :
    generate_field_fn op f ∈ builderMethods op ∧
    (generate_field_fn op f).takesSelf = true ∧
    ∃ j : Nat, (typeStateFields op)[j]? = some f ∧
      (∀ s : List Bool, s.length = numParams op →
        (availableAt (generate_field_fn op f) s ↔ s[j]? = some false)) ∧
      ∃ ret : List StateArg, (generate_field_fn op f).returns = some ret ∧
        ret[j]? = some StateArg.set ∧
        (∀ i : Nat, i ≠ j → ret[i]? = (generate_field_fn op f).selfArgs[i]?) ∧
        (∀ i : Nat, i ≠ j → i < numParams op →
          (generate_field_fn op f).selfArgs[i]? = some (StateArg.param i)) := by
  have hset : f ∈ settableFields op := (List.mem_filter.mp hmem).1
  have hreq : f.is_required = true := (List.mem_filter.mp hmem).2
  have hopt : f.is_optional = false := by simp [Field.is_optional, hreq]
  have hself : (generate_field_fn op f).selfArgs = arguments_set op f.name false := by
    simp [generate_field_fn, hopt]
  have hret : (generate_field_fn op f).returns = some (arguments_set op f.name true) := by
    simp [generate_field_fn, hopt]
  obtain ⟨j, hj⟩ := List.mem_iff_getElem?.mp hmem
  have huniq := ts_index_unique op f j hnd hj
  refine ⟨?_, by unfold generate_field_fn; split <;> rfl, j, hj, ?_,
    arguments_set op f.name true, hret, ?_, ?_, ?_⟩
  · rw [builderMethods_eq]
    exact List.mem_cons_of_mem _ (List.mem_append_left _ (List.mem_map_of_mem _ hset))
  · intro s hslen
    constructor
    · rintro ⟨r, hr⟩
      rw [hself] at hr
      rw [← hr, List.getElem?_map, arguments_set_getElem?, hj]
      simp [StateArg.interp]
    · intro hsj
      refine ⟨fun i => s.getD i true, ?_⟩
      rw [hself]
      apply List.ext_getElem?
      intro i
      rw [List.getElem?_map, arguments_set_getElem?]
      by_cases hi : i < numParams op
      · have hilt : i < (typeStateFields op).length := hi
        obtain ⟨g, hg⟩ : ∃ g, (typeStateFields op)[i]? = some g :=
          ⟨_, List.getElem?_eq_getElem hilt⟩
        rw [hg]
        by_cases hgn : g.name = f.name
        · have hij : i = j := huniq i g hg hgn
          subst hij
          simp only [Option.map_some', if_pos hgn, StateArg.interp]
          exact hsj.symm
        · simp only [Option.map_some', if_neg hgn, StateArg.interp]
          have hislt : i < s.length := by rw [hslen]; exact hi
          rw [List.getElem?_eq_getElem hislt, List.getD_eq_getElem?_getD,
            List.getElem?_eq_getElem hislt]
          rfl
      · push_neg at hi
        have h1 : (typeStateFields op)[i]? = none := List.getElem?_eq_none hi
        have h2 : s[i]? = none := List.getElem?_eq_none (by rw [hslen]; exact hi)
        rw [h1, h2]
        rfl
  · rw [arguments_set_getElem?, hj]
    simp
  · intro i hij
    rw [hself, arguments_set_getElem?, arguments_set_getElem?]
    cases hgi : (typeStateFields op)[i]? with
    | none => rfl
    | some g =>
      by_cases hgn : g.name = f.name
      · exact absurd (huniq i g hgi hgn) hij
      · simp [hgn]
  · intro i hij hi
    rw [hself, arguments_set_getElem?]
    have hilt : i < (typeStateFields op).length := hi
    obtain ⟨g, hg⟩ : ∃ g, (typeStateFields op)[i]? = some g :=
      ⟨_, List.getElem?_eq_getElem hilt⟩
    rw [hg]
    by_cases hgn : g.name = f.name
    · exact absurd (huniq i g hg hgn) hij
    · simp [hgn]

/-- Claim C2 witness at the required operand of the example schema. -/
theorem claim2_required_setter_transition_witness :
    generate_field_fn exOp exLhs ∈ builderMethods exOp ∧
    (generate_field_fn exOp exLhs).takesSelf = true ∧
    ∃ j : Nat, (typeStateFields exOp)[j]? = some exLhs ∧
      (∀ s : List Bool, s.length = numParams exOp →
        (availableAt (generate_field_fn exOp exLhs) s ↔ s[j]? = some false)) ∧
      ∃ ret : List StateArg, (generate_field_fn exOp exLhs).returns = some ret ∧
        ret[j]? = some StateArg.set ∧
        (∀ i : Nat, i ≠ j → ret[i]? = (generate_field_fn exOp exLhs).selfArgs[i]?) ∧
        (∀ i : Nat, i ≠ j → i < numParams exOp →
          (generate_field_fn exOp exLhs).selfArgs[i]? = some (StateArg.param i)) :=
  claim2_required_setter_transition exOp exLhs (by decide) (by decide)

/-- Counting setters by field name equals counting occurrences of the
name among the fields. -/
theorem countP_name_eq (op : Operation) (nm : String) (l : List Field) :
    l.countP (fun g => (generate_field_fn op g).methodName == nm) =
      (l.map Field.name).count nm := by
  rw [show (l.map Field.name).count nm =
    (l.map Field.name).countP (fun x => x == nm) from rfl]
  rw [List.countP_map]
  apply List.countP_congr
  intro g _
  simp [methodName_generate_field_fn, Function.comp]

/-- Claim C4: for every optional or variadic field that the builder
generator treats, exactly one method with its name is emitted; that
setter is generic over the full type-state parameter list, returns the
builder at the same instantiation it was called on, is available at
every instantiation, and the field contributes no type-state
coordinate. -/
theorem claim4_optional_setter_state_preserving (op : Operation) (f : Field)
    (hopt : f.is_optional = true)
    (hmem : f ∈ settableFields op)
    (hnd : ((settableFields op).map Field.name).Nodup)
    (hnb : f.name ≠ "new") (hbb : f.name ≠ "build") :
    (builderMethods op).countP (fun m => m.methodName == f.name) = 1 ∧
    generate_field_fn op f ∈ builderMethods op ∧
    (generate_field_fn op f).implParams = parameters op ∧
    (generate_field_fn op f).returns = some ((generate_field_fn op f).selfArgs) ∧
    (∀ s : List Bool, s.length = numParams op → availableAt (generate_field_fn op f) s) ∧
    f ∉ typeStateFields op := by
  have hself : (generate_field_fn op f).selfArgs = (parameters op).map StateArg.param := by
    simp [generate_field_fn, hopt]
  refine ⟨?_, ?_, by simp [generate_field_fn, hopt], by simp [generate_field_fn, hopt],
    ?_, ?_⟩
  · have hnewp : ((generate_new_fn op).methodName == f.name) = false := by
      have h : ("new" : String) ≠ f.name := fun h => hnb h.symm
      simpa [generate_new_fn] using h
    have hbuildp : ((generate_build_fn op).methodName == f.name) = false := by
      have h : ("build" : String) ≠ f.name := fun h => hbb h.symm
      simpa [generate_build_fn] using h
    have hmid : ((settableFields op).map (generate_field_fn op)).countP
        (fun m => m.methodName == f.name) = 1 := by
      rw [List.countP_map]
      rw [show ((fun m : MethodImpl => m.methodName == f.name) ∘ generate_field_fn op) =
        (fun g => (generate_field_fn op g).methodName == f.name) from rfl]
      rw [countP_name_eq]
      exact List.count_eq_one_of_mem hnd (List.mem_map_of_mem Field.name hmem)
    rw [builderMethods_eq]
    simp [List.countP_cons, List.countP_append, hmid, hnewp, hbuildp]
  · rw [builderMethods_eq]
    exact List.mem_cons_of_mem _ (List.mem_append_left _ (List.mem_map_of_mem _ hmem))
  · intro s hslen
    refine ⟨fun i => s.getD i true, ?_⟩
    rw [hself, List.map_map]
    apply List.ext_getElem?
    intro i
    rw [List.getElem?_map]
    by_cases hi : i < numParams op
    · rw [show (parameters op)[i]? = some i from by
        simp [parameters, List.getElem?_range, hi]]
      simp only [Option.map_some', Function.comp, StateArg.interp]
      have hislt : i < s.length := by rw [hslen]; exact hi
      rw [List.getElem?_eq_getElem hislt, List.getD_eq_getElem?_getD,
        List.getElem?_eq_getElem hislt]
      rfl
    · push_neg at hi
      have h1 : (parameters op)[i]? = none := by
        apply List.getElem?_eq_none
        simpa [parameters] using hi
      have h2 : s[i]? = none := List.getElem?_eq_none (by rw [hslen]; exact hi)
      rw [h1, h2]
      rfl
  · intro hcon
    have hr : f.is_required = true := (List.mem_filter.mp hcon).2
    have : f.is_optional = false := by simp [Field.is_optional, hr]
    rw [this] at hopt
    exact Bool.noConfusion hopt

/-- Claim C4 witness at the variadic operand of the example schema. -/
theorem claim4_optional_setter_state_preserving_witness :
    (builderMethods exOp).countP (fun m => m.methodName == exVs.name) = 1 ∧
    generate_field_fn exOp exVs ∈ builderMethods exOp ∧
    (generate_field_fn exOp exVs).implParams = parameters exOp ∧
    (generate_field_fn exOp exVs).returns = some ((generate_field_fn exOp exVs).selfArgs) ∧
    (∀ s : List Bool, s.length = numParams exOp → availableAt (generate_field_fn exOp exVs) s) ∧
    exVs ∉ typeStateFields exOp :=
  claim4_optional_setter_state_preserving exOp exVs (by decide) (by decide) (by decide)
    (by decide) (by decide)

/-- Claim C5: the emitted default constructor takes one value per
required field plus a location, chains exactly the required field
setters in declaration order after new, finishes with build, and running
it under the semantics of the emitted methods produces the same
constructed operation as manually driving the builder through the
required setters in declaration order and building. -/
theorem claim5_default_constructor_equiv (op : Operation) (loc : String) (vs : List String)
    (hnd : ((settableFields op).map Field.name).Nodup)
    (hnew : ∀ f ∈ settableFields op, f.name ≠ "new")
    (hbuild : ∀ f ∈ settableFields op, f.name ≠ "build") :
    (generate_default_constructor op).args =
      (required_fields op).map Field.name ++ ["location"] ∧
    (generate_default_constructor op).calls = (required_fields op).map Field.name ∧
    (generate_default_constructor op).finalCall = "build" ∧
    runDefaultConstructor op loc vs = some (manualBuildResult op loc vs) := by
  refine ⟨rfl, rfl, rfl, ?_⟩
  have hrun := runCalls_required op hnd hnew (required_fields op) vs
    { opName := op.fullOperationName, loc := loc, adds := [] }
    (fun f hf => (List.mem_filter.mp hf).1)
  unfold runDefaultConstructor
  rw [find_method_new op]
  show (match runCalls (builderMethods op)
      { opName := op.fullOperationName, loc := loc, adds := [] }
      (((required_fields op).map Field.name).zip vs) with
    | some st =>
      match (builderMethods op).find? (fun m => m.methodName == "build") with
      | some mBuild =>
        match mBuild.body with
        | MethodBody.buildOp infer =>
          some { opName := st.opName, loc := st.loc, adds := st.adds, inferred := infer }
        | _ => none
      | none => none
    | none => none) = some (manualBuildResult op loc vs)
  rw [hrun, find_method_build op hbuild]
  rfl

/-- Claim C5 witness at the example schema with concrete values. -/
theorem claim5_default_constructor_equiv_witness :
    (generate_default_constructor exOp).args =
      (required_fields exOp).map Field.name ++ ["location"] ∧
    (generate_default_constructor exOp).calls = (required_fields exOp).map Field.name ∧
    (generate_default_constructor exOp).finalCall = "build" ∧
    runDefaultConstructor exOp "loc0" ["v0", "v1"] =
      some (manualBuildResult exOp "loc0" ["v0", "v1"]) :=
  claim5_default_constructor_equiv exOp "loc0" ["v0", "v1"] (by decide) (by decide)
    (by decide)

/-- Claim C7: when the can-infer-result-types flag is set the emitted
builder has no method named after any result field and no type-state
coordinate for any result field; when the flag is unset every result
field receives a setter like the other categories, a transition setter
when it is required. -/
theorem claim7_infer_skips_results (op : Operation)
    (hdisj : ∀ f ∈ op.results,
      ∀ g ∈ op.operands ++ op.regions ++ op.successors ++ op.attributes, g.name ≠ f.name)
    (hnb : ∀ f ∈ op.results, f.name ≠ "new" ∧ f.name ≠ "build") :
    (op.canInferType = true →
      (∀ f ∈ op.results, ∀ m ∈ builderMethods op, m.methodName ≠ f.name) ∧
      ∀ f ∈ op.results, f.name ∉ (typeStateFields op).map Field.name) ∧
    (op.canInferType = false →
      ∀ f ∈ op.results, generate_field_fn op f ∈ builderMethods op ∧
        (f.is_required = true →
          (generate_field_fn op f).selfArgs = arguments_set op f.name false ∧
          (generate_field_fn op f).returns = some (arguments_set op f.name true))) := by
  constructor
  · intro hinf
    have hsett : settableFields op =
        op.operands ++ op.regions ++ op.successors ++ op.attributes := by
      simp [settableFields, hinf]
    constructor
    · intro f hf m hm
      rw [builderMethods_eq] at hm
      rcases List.mem_cons.mp hm with rfl | hm2
      · intro hcon
        exact (hnb f hf).1 hcon.symm
      rcases List.mem_append.mp hm2 with hm3 | hm4
      · rcases List.mem_map.mp hm3 with ⟨g, hg, rfl⟩
        rw [methodName_generate_field_fn]
        exact hdisj f hf g (hsett ▸ hg)
      · have hmb : m = generate_build_fn op := by simpa using hm4
        subst hmb
        intro hcon
        exact (hnb f hf).2 hcon.symm
    · intro f hf hcon
      rcases List.mem_map.mp hcon with ⟨g, hg, hname⟩
      have hgsett : g ∈ settableFields op := (List.mem_filter.mp hg).1
      exact hdisj f hf g (hsett ▸ hgsett) hname
  · intro hinf f hf
    have hset : f ∈ settableFields op := by
      simp [settableFields, hinf, hf]
    refine ⟨?_, ?_⟩
    · rw [builderMethods_eq]
      exact List.mem_cons_of_mem _ (List.mem_append_left _ (List.mem_map_of_mem _ hset))
    · intro hreq
      have hopt : f.is_optional = false := by simp [Field.is_optional, hreq]
      constructor <;> simp [generate_field_fn, hopt]

/-- Claim C7 witness at the example schema, whose flag is unset. -/
theorem claim7_infer_skips_results_witness :
    (exOp.canInferType = true →
      (∀ f ∈ exOp.results, ∀ m ∈ builderMethods exOp, m.methodName ≠ f.name) ∧
      ∀ f ∈ exOp.results, f.name ∉ (typeStateFields exOp).map Field.name) ∧
    (exOp.canInferType = false →
      ∀ f ∈ exOp.results, generate_field_fn exOp f ∈ builderMethods exOp ∧
        (f.is_required = true →
          (generate_field_fn exOp f).selfArgs = arguments_set exOp f.name false ∧
          (generate_field_fn exOp f).returns = some (arguments_set exOp f.name true))) :=
  claim7_infer_skips_results exOp (by decide) (by decide)

end Melior
